import Mathlib

/-!
Verification development for the documentation-generation pipeline in
.github/scripts/generate_docs.py (CoMPhy-Lab BurstingBubble repository).

The Python script is embedded shallowly:

* filesystem paths are modelled as lists of POSIX path components
  (RepoPath below); absolute path strings are modelled as plain strings
  where the original code compares whole path strings;
* pure string manipulation (pathlib suffix arithmetic, str.strip,
  str.replace, str.count, str.split, regular-expression matching on the
  specific patterns the script uses) is re-implemented as executable
  Lean functions, faithful to the CPython semantics of the exact calls
  made by the script;
* external subprocesses (pandoc, the literate-c preprocessor) are
  modelled by their observable outcome (exit code, produced output),
  threaded in as explicit values;
* the mutable docs/ directory is modelled as a finite map from paths to
  file contents, and the driver loop of main() as a fold over the
  enumerated source files.
-/

set_option maxRecDepth 100000

namespace GenerateDocs

/-- RepoPath models a POSIX path as its list of components, mirroring
pathlib PurePosixPath.parts for paths relative to the repository root
(or relative to the docs root, where stated). -/
abbrev RepoPath := List String

/-- pyIsSpace models the CPython str whitespace test used by
str.strip() / str.split() and the regex class backslash-s on ASCII
input: space, tab, newline, carriage return, vertical tab, form feed. -/
def pyIsSpace (c : Char) : Bool :=
  c = ' ' || c = '\t' || c = '\n' || c = '\r' || c = '\x0b' || c = '\x0c'

/-- pyStripList models str.strip() on a character list: drop leading and
trailing whitespace. -/
def pyStripList (cs : List Char) : List Char :=
  ((cs.dropWhile pyIsSpace).reverse.dropWhile pyIsSpace).reverse

/-- pyStrip models Python str.strip() (no argument form). -/
def pyStrip (s : String) : String :=
  String.mk (pyStripList s.toList)

/-- pyStartsWith models Python str.startswith on codepoints; it is
defined over the character lists so that concrete instances reduce in
the kernel. -/
def pyStartsWith (s pre : String) : Bool :=
  pre.toList.isPrefixOf s.toList

/-- pyEndsWith models Python str.endswith on codepoints. -/
def pyEndsWith (s post : String) : Bool :=
  post.toList.reverse.isPrefixOf s.toList.reverse

/-- pyRFindDot models name.rfind(".") from pathlib PurePath.suffix:
the index of the last dot, if any. -/
def pyRFindDot (cs : List Char) : Option Nat :=
  match cs.reverse.findIdx? (fun c => c = '.') with
  | some j => some (cs.length - 1 - j)
  | none => none

/-- pySuffixLen models the length of pathlib PurePath.suffix for a file
name given as a character list: the suffix is name[i:] where i is the
index of the last dot, provided 0 < i < len(name) - 1, else empty. -/
def pySuffixLen (cs : List Char) : Nat :=
  match pyRFindDot cs with
  | some i => if 0 < i ∧ i < cs.length - 1 then cs.length - i else 0
  | none => 0

/-- pySuffix models pathlib PurePath.suffix on a file name
(the extension of the last component, including the dot). -/
def pySuffix (n : String) : String :=
  String.mk (n.toList.drop (n.toList.length - pySuffixLen n.toList))

/-- pyWithSuffixName models the effect of pathlib
PurePath.with_suffix(new) on the file name: the current suffix is
removed and the new suffix appended. -/
def pyWithSuffixName (n new : String) : String :=
  String.mk (n.toList.take (n.toList.length - pySuffixLen n.toList)) ++ new

/-- output_html_name embeds the per-name effect of the output-path
construction in main():
output_html_path = DOCS_DIR / relative_path.with_suffix(relative_path.suffix + ".html")
restricted to the file-name component that with_suffix rewrites. -/
def output_html_name (n : String) : String :=
  pyWithSuffixName n (pySuffix n ++ ".html")

/-- with_html_suffix applies the with_suffix rewrite of main() to the
last component of a repository-relative path, leaving the directory
components unchanged (pathlib with_suffix only changes the name). -/
def with_html_suffix : RepoPath → RepoPath
  | [] => []
  | [n] => [output_html_name n]
  | c :: rest => c :: with_html_suffix rest

/-- outputPath embeds the output-path computation of main() (lines
2160-2166 of generate_docs.py): the docs root joined with the
repository-relative source path whose name has been passed through
with_suffix(suffix + ".html"). -/
def outputPath (docsDir rel : RepoPath) : RepoPath :=
  docsDir ++ with_html_suffix rel

/-- calculate_asset_prefix embeds the function of the same name
(generate_docs.py lines 26-50).  The original receives the absolute
output path and the docs root and calls relative_to; the model receives
the already-relative path of the output file below the docs root, as a
component list.  depth = len(rel.parents) - 1 equals the number of
directory components, i.e. rel.length - 1; the Python int depth <= 0
comparison coincides with the Nat test depth = 0 because depth is -1
only for the empty relative path, where truncated subtraction also
gives 0 and both return ".".  The ValueError fallback of the original
(output path not below the docs root) cannot arise for a relative
path and is not modelled. -/
def calculate_asset_prefix (rel : RepoPath) : String :=
  if rel = ["index.html"] then "."
  else
    let depth := rel.length - 1
    if depth = 0 then "."
    else String.intercalate "/" (List.replicate depth "..")

/-- pySplitFuel is the fuel-indexed worker for pySplitList; the fuel is
always instantiated with the length of the list, which suffices because
every step consumes at least one character.  Structural recursion on
the fuel keeps the function reducible in the kernel. -/
def pySplitFuel (sep : List Char) : Nat → List Char → List (List Char)
  | 0, cs => [cs]
  | n + 1, cs =>
    match cs with
    | [] => [[]]
    | c :: rest =>
      if sep ≠ [] ∧ sep.isPrefixOf cs then
        [] :: pySplitFuel sep n (cs.drop sep.length)
      else
        match pySplitFuel sep n rest with
        | [] => [[c]]
        | seg :: more => (c :: seg) :: more

/-- pySplitList models Python str.split(sep) for a non-empty separator
(equivalently the segment list of String.splitOn): the input split at
every non-overlapping, leftmost-first occurrence of sep.  A string with
n occurrences of sep yields n+1 segments. -/
def pySplitList (sep cs : List Char) : List (List Char) :=
  pySplitFuel sep cs.length cs

/-- containsList models the CPython substring scan behind (pat in s):
test the pattern as a prefix at every position, left to right.  The
scan is tail recursive so that multi-kilobyte concrete instances reduce
in the kernel. -/
def containsList (cs pat : List Char) : Bool :=
  match cs with
  | [] => pat.isPrefixOf []
  | _ :: rest => if pat.isPrefixOf cs then true else containsList rest pat

/-- contains_sub models the Python substring test (pat in s). -/
def contains_sub (s pat : String) : Bool :=
  containsList s.toList pat.toList

/-- findSubAux is the worker of the CPython str.find scan: the index of
the leftmost position where the pattern is a prefix, if any. -/
def findSubAux (pat : List Char) (acc : Nat) : List Char → Option Nat
  | [] => none
  | c :: rest =>
    if pat.isPrefixOf (c :: rest) then some acc else findSubAux pat (acc + 1) rest

/-- findSub models Python str.find(pat) restricted to a non-empty
pattern, with -1 rendered as none. -/
def findSub (cs pat : List Char) : Option Nat :=
  findSubAux pat 0 cs

/-- listAppendTR is list append computed by two tail-recursive reversal
passes; it equals the ordinary append (listAppendTR_eq below) and keeps
kernel reduction shallow on long lists. -/
def listAppendTR (a b : List Char) : List Char :=
  List.reverseAux (List.reverseAux a []) b

/-- takeRevAux accumulates the first n elements in reverse, tail
recursively. -/
def takeRevAux : Nat → List Char → List Char → List Char
  | 0, _, acc => acc
  | _, [], acc => acc
  | n + 1, c :: rest, acc => takeRevAux n rest (c :: acc)

/-- takeTR is List.take computed tail recursively (takeTR_eq below). -/
def takeTR (n : Nat) (cs : List Char) : List Char :=
  List.reverseAux (takeRevAux n cs []) []

/-- listEqTR is list equality as a tail-recursive boolean scan
(listEqTR_eq_true_iff below relates it to propositional equality). -/
def listEqTR : List Char → List Char → Bool
  | [], [] => true
  | a :: as, b :: bs => if a = b then listEqTR as bs else false
  | _, _ => false

/-- pyCount models Python str.count(sub) for a non-empty sub:
the number of non-overlapping occurrences, counted left to right. -/
def pyCount (s sub : String) : Nat :=
  (pySplitList sub.toList s.toList).length - 1

/-- joinWith interleaves a separator between segments; together with
pySplitList it expresses Python str.replace(a, b) as
b.join(s.split(a)). -/
def joinWith (sep : List Char) : List (List Char) → List Char
  | [] => []
  | [x] => x
  | x :: xs => x ++ sep ++ joinWith sep xs

/-- pyReplace models Python str.replace(a, b) for a non-empty a: every
non-overlapping occurrence of a, scanned left to right, is replaced by
b. -/
def pyReplace (s a b : String) : String :=
  String.mk (joinWith b.toList (pySplitList a.toList s.toList))

/-- pySplitWs1 models Python str.split(None, 1): leading whitespace is
discarded, the first whitespace-delimited token is returned, and the
remainder (with its own leading whitespace discarded but trailing
content intact) becomes the optional second element. -/
def pySplitWs1 (s : String) : List String :=
  let cs := s.toList.dropWhile pyIsSpace
  if cs = [] then []
  else
    let tok := cs.takeWhile (fun c => !(pyIsSpace c))
    let rest := (cs.dropWhile (fun c => !(pyIsSpace c))).dropWhile pyIsSpace
    if rest = [] then [String.mk tok] else [String.mk tok, String.mk rest]

/-- pyRstripSlashes models str.rstrip("/"): all trailing slashes
removed. -/
def pyRstripSlashes (s : String) : String :=
  String.mk ((s.toList.reverse.dropWhile (fun c => c = '/')).reverse)

/-- pyLstripSlashes models str.lstrip("/"): all leading slashes
removed. -/
def pyLstripSlashes (s : String) : String :=
  String.mk (s.toList.dropWhile (fun c => c = '/'))

/-- TreeState is the loop state of convert_directory_tree_to_html:
the ancestor-directory stack indexed by indent level, the previous
indent level (initially -1), and the HTML lines emitted so far. -/
structure TreeState where
  path_stack : List String
  prev_indent : Int
  html : List String

/-- popN removes the last k elements (repeated guarded list.pop()). -/
def popN (l : List String) (k : Nat) : List String :=
  l.take (l.length - k)

/-- treeStep embeds one iteration of the line loop of
convert_directory_tree_to_html (generate_docs.py lines 1396-1468).
The glyph constants of the original are, in this revision of the
script, plain space strings: the indent test checks for a three-space
run and counts its non-overlapping occurrences; the elif branch checks
a four-space run together with a single space (therefore it is
unreachable, since four spaces contain three); the cleanup replace
chain removes every space (its first replacement is a single space).
parts[0] and path_stack[indent_level-1] would raise IndexError in
Python when missing; the model returns "" there, which no reachable
input of the analysed claims exercises. -/
def treeStep (st : TreeState) (line : String) : TreeState :=
  if pyStrip line = "" then st
  else
    let indent_level : Nat :=
      if contains_sub line "   " then pyCount line "   "
      else if contains_sub line "    " ∧ (contains_sub line " " ∨ contains_sub line " ") then
        (line.toList.length - (line.toList.dropWhile (fun c => c = ' ')).length) / 4
      else 0
    let clean_line := pyReplace (pyReplace (pyReplace line " " "") " " "") "   " ""
    let parts := pySplitWs1 (pyStrip clean_line)
    let path := parts.headD ""
    let description := (parts.get? 1).getD ""
    let is_dir := pyEndsWith path "/"
    let stack1 :=
      if (indent_level : Int) > st.prev_indent then
        (if st.path_stack ≠ [] ∧ st.prev_indent ≥ 0 then
          st.path_stack ++ [(st.path_stack.getLast?).getD ""]
        else st.path_stack)
      else if (indent_level : Int) < st.prev_indent then
        popN st.path_stack (st.prev_indent - (indent_level : Int)).toNat
      else st.path_stack
    let indent := String.mk (List.replicate (2 * indent_level) ' ')
    if is_dir then
      let dir_name := pyRstripSlashes path
      let item :=
        if dir_name = "basilisk/src" then
          indent ++ "* " ++ "**" ++ path ++ "** - " ++ description
        else indent ++ "* " ++ "**[" ++ path ++ "](" ++ dir_name ++ ")** - " ++ description
      let stack2 :=
        if stack1.length ≤ indent_level then stack1 ++ [dir_name]
        else stack1.set indent_level dir_name
      { path_stack := stack2, prev_indent := (indent_level : Int),
        html := st.html ++ [item] }
    else
      let parent_path :=
        if indent_level > 0 ∧ stack1 ≠ [] then (stack1.get? (indent_level - 1)).getD ""
        else ""
      let file_path :=
        pyLstripSlashes (if parent_path ≠ "" then parent_path ++ "/" ++ path else path)
      let item :=
        indent ++ "* " ++ "**[" ++ path ++ "](" ++ file_path ++ ".html)** - " ++ description
      { path_stack := stack1, prev_indent := (indent_level : Int),
        html := st.html ++ [item] }

/-- convert_directory_tree_lines embeds the tree-to-HTML loop of
convert_directory_tree_to_html applied to the text of an already
located tree block: the emitted HTML lines, opening container div
first, closing div last.  (Locating the fenced block inside the README
and splicing the result back are not modelled; the claims under
verification concern the parsing of given tree text.) -/
def convert_directory_tree_lines (tree_text : String) : List String :=
  let lines := (pySplitList ['\n'] tree_text.toList).map String.mk
  let final := lines.foldl treeStep
    ⟨[], -1, ["<div class=\"repository-structure\">"]⟩
  final.html ++ ["</div>"]

/-- c3_tree_text is the two-level tree of claim C3. -/
def c3_tree_text : String := "app/\n   core/\n      main.c"

/-- lineStartTailsAux collects the suffixes beginning right after each
newline. -/
def lineStartTailsAux : List Char → List (List Char)
  | [] => []
  | '\n' :: rest => rest :: lineStartTailsAux rest
  | _ :: rest => lineStartTailsAux rest

/-- lineStartTails lists the suffixes of the text at every position
where the MULTILINE regex anchor matches: the start of the text and
the position after each newline, in order. -/
def lineStartTails (cs : List Char) : List (List Char) :=
  cs :: lineStartTailsAux cs

/-- wsGroupBacktrack resolves the regex tail backslash-s+ (.+) dollar
at the text r, where the first argument of the recursion is the
attempted length of the whitespace run, starting from the maximal run
and backtracking downwards as the regex engine does: the group is the
longest newline-free nonempty stretch after the run. -/
def wsGroupBacktrack (r : List Char) : Nat → Option (List Char)
  | 0 => none
  | w + 1 =>
    let rest := r.drop (w + 1)
    if rest ≠ [] ∧ rest.headD ' ' ≠ '\n' then
      some (rest.takeWhile (fun c => c ≠ '\n'))
    else wsGroupBacktrack r w

/-- titleAtStart resolves the title regex of process_jupyter_notebook,
caret hash backslash-s+ (.+) dollar with re.MULTILINE, at one anchored
position. -/
def titleAtStart (cs : List Char) : Option (List Char) :=
  match cs with
  | '#' :: r => wsGroupBacktrack r (r.takeWhile pyIsSpace).length
  | _ => none

/-- title_search models re.search of the title pattern over the whole
cell source: the leftmost anchored position with a match wins. -/
def title_search (cs : List Char) : Option (List Char) :=
  (lineStartTails cs).findSome? titleAtStart

/-- twoNl tests whether the text starts with a blank-line separator
(two consecutive newlines), the lookahead of the description regex. -/
def twoNl : List Char → Bool
  | '\n' :: '\n' :: _ => true
  | _ => false

/-- descTake is the lazy group (.+?) with lookahead on two newlines or
end of input, under re.DOTALL: consume at least one character, stopping
as soon as the rest starts with a blank line or is exhausted. -/
def descTake : List Char → List Char
  | [] => []
  | c :: rest => c :: (if twoNl rest then [] else descTake rest)

/-- descFindM resolves the greedy .+ before the literal blank line of
the description regex under re.DOTALL (the dot also matches newlines):
the largest split point m with at least one consumed character, a blank
line at m, and a nonempty remainder for the lazy group. -/
def descFindM (rest : List Char) : Option (List Char) :=
  match (List.range rest.length).reverse.find?
      (fun m => decide (1 ≤ m) && twoNl (rest.drop m) && !(rest.drop (m + 2)).isEmpty) with
  | some m => some (descTake (rest.drop (m + 2)))
  | none => none

/-- descBacktrackW backtracks the leading backslash-s+ of the
description regex from the maximal whitespace run downwards. -/
def descBacktrackW (r : List Char) : Nat → Option (List Char)
  | 0 => none
  | w + 1 =>
    match descFindM (r.drop (w + 1)) with
    | some g => some g
    | none => descBacktrackW r w

/-- descAtStart resolves the description regex of
process_jupyter_notebook, caret hash backslash-s+ .+ newline newline
(.+?) lookahead, compiled with re.DOTALL and re.MULTILINE, at one
anchored position. -/
def descAtStart (cs : List Char) : Option (List Char) :=
  match cs with
  | '#' :: r => descBacktrackW r (r.takeWhile pyIsSpace).length
  | _ => none

/-- desc_search models re.search of the description pattern over the
cell source. -/
def desc_search (cs : List Char) : Option (List Char) :=
  (lineStartTails cs).findSome? descAtStart

/-- featureLine resolves the bullet regex of process_jupyter_notebook,
caret backslash-s* bullet backslash-s+ (.+) dollar with re.MULTILINE,
on one line.  The model is per line: a backslash-s run crossing a
newline boundary (a bullet item broken across lines) is not covered,
which no input of the analysed claims exercises. -/
def featureLine (l : List Char) : Option (List Char) :=
  match l.dropWhile pyIsSpace with
  | b :: rest =>
      if b = '*' ∨ b = '-' ∨ b = '+' then
        wsGroupBacktrack rest (rest.takeWhile pyIsSpace).length
      else none
  | [] => none

/-- feature_findall models re.findall of the bullet pattern: the group
of every matching line, in order. -/
def feature_findall (cs : List Char) : List (List Char) :=
  (pySplitList ['\n'] cs).filterMap featureLine

/-- NotebookCell models one parsed notebook cell: its cell_type field
and its source joined to a single string (the original joins the
source fragment list before matching). -/
structure NotebookCell where
  cell_type : String
  source : String

/-- NotebookMeta is the triple extracted by process_jupyter_notebook:
title, description and feature list (before HTML escaping). -/
structure NotebookMeta where
  title : String
  description : String
  features : List String
  deriving DecidableEq

/-- defaultFeatures is the fallback feature list of
process_jupyter_notebook. -/
def defaultFeatures : List String :=
  ["Visualization of data and results",
   "Analysis of simulation outputs",
   "Interactive exploration of parameters"]

/-- default_description is the fallback description of
process_jupyter_notebook, built from the file name. -/
def default_description (filename : String) : String :=
  "This notebook provides visualization and analysis related to " ++
    pyReplace (pyReplace
      (String.mk ((pySplitList ['.'] filename.toList).headD [])) "-" " ") "_" " " ++ "."

/-- extract_from_cells embeds the cell loop of process_jupyter_notebook
(generate_docs.py lines 298-319): scan for the first markdown cell
whose source matches the title regex; there, take the stripped title,
the stripped description group if the description regex matches, and,
only when a description was found, the stripped groups of the first
three bullet matches; then stop.  Markdown cells without a title
heading are passed over. -/
def extract_from_cells : List NotebookCell → Option (String × Option String × List String)
  | [] => none
  | cell :: rest =>
    if cell.cell_type = "markdown" then
      match title_search cell.source.toList with
      | some t =>
          let desc := desc_search cell.source.toList
          let feats :=
            match desc with
            | some _ => (feature_findall cell.source.toList).take 3
            | none => []
          some (String.mk (pyStripList t),
            desc.map (fun d => String.mk (pyStripList d)),
            feats.map (fun f => String.mk (pyStripList f)))
      | none => extract_from_cells rest
    else extract_from_cells rest

/-- process_notebook_meta embeds the metadata part of
process_jupyter_notebook: the extraction loop followed by the default
substitutions for a missing (or empty after strip) description and a
missing feature list. -/
def process_notebook_meta (filename : String) (cells : List NotebookCell) : NotebookMeta :=
  let extracted := extract_from_cells cells
  let title := match extracted with
    | some (t, _, _) => t
    | none => filename
  let desc0 := match extracted with
    | some (_, some d, _) => d
    | _ => ""
  let feats0 := match extracted with
    | some (_, _, fs) => fs
    | none => []
  ⟨title,
   if desc0 = "" then default_description filename else desc0,
   if feats0 = [] then defaultFeatures else feats0⟩

/-- c5_cell_source is the markdown cell of claim C5. -/
def c5_cell_source : String := "# Demo\n\nShort blurb.\n\n* F1\n* F2"

/-- c5_cells is a notebook with a leading code cell followed by the
markdown cell of claim C5. -/
def c5_cells : List NotebookCell :=
  [⟨"code", "x = 1"⟩, ⟨"markdown", c5_cell_source⟩]

/-- valid_exts is the accepted-extension set of find_source_files. -/
def valid_exts : List String := [".c", ".h", ".py", ".sh", ".ipynb"]

/-- valid_names is the accepted-exact-name set of find_source_files. -/
def valid_names : List String := ["Makefile"]

/-- pathNameOfString extracts the file-name component (pathlib
Path.name) of a path string: the part after the last "/". -/
def pathNameOfString (p : String) : String :=
  String.mk (((pySplitList ['/'] p.toList).getLast?).getD p.toList)

/-- is_source_file embeds the acceptance test of find_source_files
(generate_docs.py lines 204-231) applied to one directory entry that is
a regular file: its name is in valid_names, or its pathlib suffix is in
valid_exts and its name does not end in ".dat". -/
def is_source_file (p : String) : Bool :=
  let name := pathNameOfString p
  valid_names.contains name ||
    (valid_exts.contains (pySuffix name) && !(pyEndsWith name ".dat"))

/-- find_source_files embeds the function of the same name
(generate_docs.py lines 204-231).  The filesystem walk is modelled by
the list of file paths the two scans visit (the recursive rglob walk of
every configured source directory followed by the iteration over the
repository root), as path strings; the original inserts the accepted
paths into a Python set and returns sorted(files), which sorts Path
objects by their path string.  The model filters the entries, removes
duplicates, and insertion-sorts by the string order. -/
def find_source_files (entries : List String) : List String :=
  List.insertionSort (fun a b : String => a ≤ b)
    ((entries.filter (fun p => is_source_file p)).dedup)

/-- copy_js is the exact inline JavaScript snippet inserted by
insert_javascript_in_html (generate_docs.py lines 1166-1217), with
every brace written as an escape and every apostrophe escaped; the
snippet assigns the copy-button class at runtime via
button.className and therefore never contains the literal text
class="copy-button" that the guard of the function searches for. -/
def copy_js : String :=
  "\n    <script type=\"text/javascript\">\n    document.addEventListener(\x27DOMContentLoaded\x27, function() \x7b\n        // Add copy button to each code block container\n        const codeBlocks = document.querySelectorAll(\x27.code-block-container pre\x27);\n        codeBlocks.forEach(function(codeBlock, index) \x7b\n            // Create button element\n            const button = document.createElement(\x27button\x27);\n            button.className = \x27copy-button\x27;\n            button.textContent = \x27Copy\x27;\n            button.setAttribute(\x27aria-label\x27, \x27Copy code to clipboard\x27);\n            button.setAttribute(\x27data-copy-state\x27, \x27copy\x27);\n            \n            // Get the code block container (parent of the pre)\n            const container = codeBlock.parentNode;\n            \n            // Add the button to the container\n            container.appendChild(button);\n            \n            // Set up click event\n            button.addEventListener(\x27click\x27, function() \x7b\n                // Create a textarea element to copy from\n                const textarea = document.createElement(\x27textarea\x27);\n                // Get the text content from the pre element (the actual code)\n                textarea.value = codeBlock.textContent;\n                document.body.appendChild(textarea);\n                textarea.select();\n                \n                try \x7b\n                    // Execute copy command\n                    document.execCommand(\x27copy\x27);\n                    // Update button state\n                    button.textContent = \x27Copied!\x27;\n                    button.classList.add(\x27copied\x27);\n                    \n                    // Reset button state after 2 seconds\n                    setTimeout(function() \x7b\n                        button.textContent = \x27Copy\x27;\n                        button.classList.remove(\x27copied\x27);\n                    \x7d, 2000);\n                \x7d catch (err) \x7b\n                    console.error(\x27Copy failed:\x27, err);\n                    button.textContent = \x27Error!\x27;\n                \x7d\n                \n                // Clean up\n                document.body.removeChild(textarea);\n            \x7d);\n        \x7d);\n    \x7d);\n    </script>\n        "

/-- js_no_body_scaffold is the complete-HTML fallback built by
insert_javascript_in_html when the content has neither a closing nor an
opening body tag. -/
def js_no_body_scaffold (content : String) : String :=
  "<!DOCTYPE html>\n<html xmlns=\"http://www.w3.org/1999/xhtml\">\n<head>\n    <meta http-equiv=\"Content-Type\" content=\"text/html; charset=UTF-8\" />\n</head>\n<body>\n" ++
    content ++ "\n" ++ copy_js ++ "\n</body>\n</html>"

/-- insert_javascript_in_html embeds the function of the same name
(generate_docs.py lines 1144-1256) as a pure function on the file
content, returning the reported boolean and the new content.  If the
content already contains the literal class="copy-button" it is returned
unchanged; otherwise the snippet is inserted before the first </body>
(content.find plus the slices content[:idx] and content[idx:], written
with the tail-recursive take and append so that the concrete
counterexample reduces in the kernel), or appended at the end when only
an opening <body> exists, or wrapped in a minimal scaffold when no body
tag exists at all.  File-system errors of the original (which alone
make it return False) are outside the model. -/
def insert_javascript_in_html (content : String) : Bool × String :=
  if contains_sub content "class=\"copy-button\"" then (true, content)
  else
    match findSub content.toList ("</body>").toList with
    | some i =>
        (true, String.mk (listAppendTR (takeTR i content.toList)
          (listAppendTR copy_js.toList (content.toList.drop i))))
    | none =>
        if contains_sub content "<body>" then
          (true, String.mk (listAppendTR content.toList copy_js.toList))
        else (true, js_no_body_scaffold content)

/-- c10_example_html is a small well-formed page used to exercise
insert_javascript_in_html. -/
def c10_example_html : String := "<html><head></head><body><p>hi</p></body></html>"

/-- Anchor models an HTML anchor tag as matched by the regex

<a[^>]+href="[^"]+">[^<]+</a> in post_process_python_shell_html:
its href attribute value and its link text. -/
structure Anchor where
  href : String
  text : String
  deriving DecidableEq

/-- has_suffixable_ext embeds the check re.search(r"\.(c|h|py|sh|md)$", href)
of fix_doc_links: the href ends in one of the recognized source
extensions. -/
def has_suffixable_ext (href : String) : Bool :=
  pyEndsWith href ".c" || pyEndsWith href ".h" || pyEndsWith href ".py" ||
    pyEndsWith href ".sh" || pyEndsWith href ".md"

/-- fix_doc_links embeds the inner function of the same name in
post_process_python_shell_html (generate_docs.py lines 821-857):
external links (href starting with http, which subsumes https),
in-page anchors (#...), and links already ending in .html are left
unchanged; hrefs ending in a recognized source extension get ".html"
appended; every other anchor is also left unchanged. -/
def fix_doc_links (a : Anchor) : Anchor :=
  if pyStartsWith a.href "http" || pyStartsWith a.href "https" ||
      pyStartsWith a.href "#" || pyEndsWith a.href ".html" then a
  else if has_suffixable_ext a.href then { a with href := a.href ++ ".html" }
  else a

/-- LiterateCOutcome models the observable result of invoking the
external literate-c preprocessing subprocess in process_c_file: either
the process ran and returned an exit code with its captured stdout and
stderr, or invoking it raised an exception. -/
inductive LiterateCOutcome where
  | ran (returncode : Int) (stdout : String) (stderr : String)
  | raised
  deriving DecidableEq

/-- c_fallback_markdown is the plain markdown fallback built first in
process_c_file: the file name as a heading followed by the full file
content in a fenced code block tagged c. -/
def c_fallback_markdown (fileName fileContent : String) : String :=
  "# " ++ fileName ++ "\n\n```c\n" ++ fileContent ++ "\n```\n"

/-- process_c_file embeds the function of the same name
(generate_docs.py lines 573-629).  Reading the source file is modelled
by passing its name and content; running the literate-c subprocess is
modelled by its outcome.  On exit code 0 with output that is non-empty
after strip(), the output is returned with the private marker
"~~~literatec" replaced (all occurrences, as str.replace) by "~~~c";
otherwise, including when the invocation raises, the plain markdown
fallback is returned. -/
def process_c_file (fileName fileContent : String) (outcome : LiterateCOutcome) : String :=
  match outcome with
  | .ran returncode stdout _ =>
      if returncode = 0 ∧ pyStrip stdout ≠ "" then
        stdout.replace "~~~literatec" "~~~c"
      else c_fallback_markdown fileName fileContent
  | .raised => c_fallback_markdown fileName fileContent

/-- DocsFS models the state of the docs output tree as a map from
output paths to file contents (none: the file does not exist). -/
abbrev DocsFS := RepoPath → Option String

/-- updateFS writes one file. -/
def updateFS (fs : DocsFS) (p : RepoPath) (v : String) : DocsFS :=
  fun q => if q = p then some v else fs q

/-- BuildReport models the per-file error messages printed by the
driver: the pandoc-failure print inside run_pandoc, and the
exception-handler print of process_file_with_page2html_logic. -/
inductive BuildReport where
  | pandocError (f : RepoPath)
  | processError (f : RepoPath)
  deriving DecidableEq

/-- DriverState is the state threaded through the per-file loop of
main(): the accumulated source-to-output mapping generated_files (an
insertion-ordered dict, modelled as an append-only association list
over the duplicate-free enumeration), the docs tree, and the error
messages printed so far. -/
structure DriverState where
  generated : List (RepoPath × RepoPath)
  fs : DocsFS
  reported : List BuildReport

/-- mainStep embeds one iteration of the per-file loop of main()
(generate_docs.py lines 2160-2190) together with the parts of
process_file_with_page2html_logic (lines 1259-1361) and run_pandoc
(lines 710-757) that the driver claims depend on, for non-notebook
sources (the extra copy of the .ipynb file next to its page is not
modelled).  The external renderer is modelled by its outcome per
source file: exit code, and the output file content it wrote, if any.
The skip branch (not force-rebuild and the output exists) records the
pair and does nothing else.  Otherwise pandoc runs: a non-zero exit is
reported (run_pandoc returns "" which the caller ignores); the caller
then reads the output file back, and all post-processing (the
kind-dependent passes plus insert_javascript_in_html) is abstracted
into the function post rewriting that content; if the output file does
not exist the read raises, the handler reports the file and returns
False, so the pair is not recorded. -/
def mainStep (docsDir : RepoPath) (force : Bool)
    (pandoc : RepoPath → Int × Option String) (post : String → String)
    (st : DriverState) (f : RepoPath) : DriverState :=
  let out := outputPath docsDir f
  if force = false ∧ (st.fs out).isSome = true then
    { st with generated := st.generated ++ [(f, out)] }
  else
    let pr := pandoc f
    let fs1 :=
      match pr.2 with
      | some h => updateFS st.fs out h
      | none => st.fs
    let rep1 :=
      if pr.1 ≠ 0 then st.reported ++ [BuildReport.pandocError f] else st.reported
    match fs1 out with
    | some h =>
        { generated := st.generated ++ [(f, out)],
          fs := updateFS fs1 out (post h),
          reported := rep1 }
    | none =>
        { generated := st.generated, fs := fs1,
          reported := rep1 ++ [BuildReport.processError f] }

/-- mainLoop is the per-file loop of main() over the enumerated source
files. -/
def mainLoop (docsDir : RepoPath) (force : Bool)
    (pandoc : RepoPath → Int × Option String) (post : String → String)
    (files : List RepoPath) (st : DriverState) : DriverState :=
  files.foldl (mainStep docsDir force pandoc post) st

/-- DriverCore is the reported-independent part of the driver state:
the mapping and the docs tree. -/
abbrev DriverCore := List (RepoPath × RepoPath) × DocsFS

/-- coreOf projects the driver state to its core. -/
def coreOf (st : DriverState) : DriverCore :=
  (st.generated, st.fs)

/-- coreStep is mainStep on the core: the emitted error messages never
influence the mapping or the files written. -/
def coreStep (docsDir : RepoPath) (force : Bool)
    (pandoc : RepoPath → Int × Option String) (post : String → String)
    (c : DriverCore) (f : RepoPath) : DriverCore :=
  let out := outputPath docsDir f
  if force = false ∧ (c.2 out).isSome = true then (c.1 ++ [(f, out)], c.2)
  else
    let pr := pandoc f
    let fs1 :=
      match pr.2 with
      | some h => updateFS c.2 out h
      | none => c.2
    match fs1 out with
    | some h => (c.1 ++ [(f, out)], updateFS fs1 out (post h))
    | none => (c.1, fs1)

/-- c7_fs is a docs tree holding one already-generated page, used to
exercise the skip branch. -/
def c7_fs : DocsFS :=
  fun q => if q = ["docs", "a.c.html"] then some "OLD" else none

/-- c7_state is a driver state over c7_fs with empty mapping. -/
def c7_state : DriverState := ⟨[], c7_fs, []⟩

/-- c7_pandoc is a renderer stub that would succeed, to demonstrate
that the skip branch never consults it. -/
def c7_pandoc : RepoPath → Int × Option String := fun _ => (0, some "NEW")

/-- c8_pandoc is a renderer stub failing (exit 1, nothing written) on
bad.c and succeeding elsewhere. -/
def c8_pandoc : RepoPath → Int × Option String :=
  fun p => if p = ["bad.c"] then (1, none) else (0, some "HTML")

/-- c8_state is the empty driver state over an empty docs tree. -/
def c8_state : DriverState := ⟨[], fun _ => none, []⟩

end GenerateDocs

namespace GenerateDocs

/-- pyWithSuffixName with the suffix of the name itself plus ".html"
is plain concatenation of ".html": with_suffix removes exactly the
suffix it then re-appends. -/
theorem output_html_name_eq (n : String) : output_html_name n = n ++ ".html" := by
  show String.mk (n.toList.take (n.toList.length - pySuffixLen n.toList)) ++
      (String.mk (n.toList.drop (n.toList.length - pySuffixLen n.toList)) ++ ".html") =
      n ++ ".html"
  apply String.ext
  show (n.toList.take (n.toList.length - pySuffixLen n.toList)) ++
      ((n.toList.drop (n.toList.length - pySuffixLen n.toList)) ++ (".html").data) =
      n.data ++ (".html").data
  rw [← List.append_assoc, List.take_append_drop]
  rfl

/-- with_html_suffix keeps the directory part and appends ".html" to the
file name. -/
theorem with_html_suffix_eq (rel : RepoPath) (h : rel ≠ []) :
    with_html_suffix rel = rel.dropLast ++ [rel.getLast h ++ ".html"] := by
  induction rel with
  | nil => exact absurd rfl h
  | cons c rest ih =>
    cases rest with
    | nil => simp [with_html_suffix, output_html_name_eq]
    | cons d rest2 =>
      have hne : d :: rest2 ≠ [] := by simp
      have := ih hne
      simp only [with_html_suffix, this]
      simp [List.getLast]

/-- with_html_suffix preserves list length. -/
theorem with_html_suffix_length (rel : RepoPath) :
    (with_html_suffix rel).length = rel.length := by
  induction rel with
  | nil => rfl
  | cons c rest ih =>
    cases rest with
    | nil => rfl
    | cons d rest2 => simpa [with_html_suffix] using ih

/-- Appending ".html" to a string is injective. -/
theorem append_html_injective (a b : String) (h : a ++ ".html" = b ++ ".html") :
    a = b := by
  apply String.ext
  have : a.data ++ (".html").data = b.data ++ (".html").data := congrArg String.data h
  exact List.append_cancel_right this

/-- with_html_suffix is injective on nonempty paths. -/
theorem with_html_suffix_injective (r₁ r₂ : RepoPath) (h₁ : r₁ ≠ []) (h₂ : r₂ ≠ [])
    (h : with_html_suffix r₁ = with_html_suffix r₂) : r₁ = r₂ := by
  rw [with_html_suffix_eq r₁ h₁, with_html_suffix_eq r₂ h₂] at h
  have hrev : (r₁.dropLast ++ [r₁.getLast h₁ ++ ".html"]).reverse =
      (r₂.dropLast ++ [r₂.getLast h₂ ++ ".html"]).reverse := by rw [h]
  simp only [List.reverse_append, List.reverse_cons, List.reverse_nil, List.nil_append,
    List.singleton_append] at hrev
  obtain ⟨hhead, htail⟩ := List.cons.injEq _ _ _ _ ▸ hrev
  have hname : r₁.getLast h₁ = r₂.getLast h₂ := append_html_injective _ _ hhead
  have hdrop : r₁.dropLast = r₂.dropLast := by
    have := congrArg List.reverse htail
    simpa using this
  calc r₁ = r₁.dropLast ++ [r₁.getLast h₁] := (List.dropLast_append_getLast h₁).symm
    _ = r₂.dropLast ++ [r₂.getLast h₂] := by rw [hname, hdrop]
    _ = r₂ := List.dropLast_append_getLast h₂

/-- C1: for every accepted source file (a nonempty repository-relative
path), the output path is the docs root joined with the relative path
whose file name gets ".html" appended after the original suffix, and
the source-path to output-path mapping is injective. -/
theorem C1_output_path_shape_and_injective (docsDir r₁ r₂ : RepoPath)
    (h₁ : r₁ ≠ []) (h₂ : r₂ ≠ []) :
    outputPath docsDir r₁ = docsDir ++ (r₁.dropLast ++ [r₁.getLast h₁ ++ ".html"]) ∧
    (outputPath docsDir r₁ = outputPath docsDir r₂ → r₁ = r₂) := by
  constructor
  · unfold outputPath
    rw [with_html_suffix_eq r₁ h₁]
  · intro h
    unfold outputPath at h
    exact with_html_suffix_injective r₁ r₂ h₁ h₂ (List.append_cancel_left h)

/-- C1 witness: the mapping evaluated on a/b/file.c with docs root
[docs], and injectivity instantiated at two concrete paths. -/
theorem C1_output_path_shape_and_injective_witness :
    (["a", "b", "file.c"] : RepoPath) ≠ [] ∧
    (["x.py"] : RepoPath) ≠ [] ∧
    outputPath ["docs"] ["a", "b", "file.c"] = ["docs", "a", "b", "file.c.html"] := by
  refine ⟨by decide, by decide, ?_⟩
  have h := C1_output_path_shape_and_injective ["docs"] ["a", "b", "file.c"] ["x.py"]
    (by decide) (by decide)
  rw [h.1]
  rfl

/-- C2: calculate_asset_prefix returns "." for the root index file and
for any output file directly under the docs root (depth 0), and for a
file at depth d >= 1 it returns exactly d ".." segments joined by
"/". -/
theorem C2_asset_prefix_depth (rel : RepoPath) :
    (rel.length ≤ 1 → calculate_asset_prefix rel = ".") ∧
    (∀ d : Nat, 1 ≤ d → rel.length = d + 1 →
      calculate_asset_prefix rel = String.intercalate "/" (List.replicate d "..")) := by
  constructor
  · intro hlen
    unfold calculate_asset_prefix
    by_cases hidx : rel = ["index.html"]
    · simp [hidx]
    · have hdep : rel.length - 1 = 0 := by omega
      simp [hidx, hdep]
  · intro d hd hlen
    unfold calculate_asset_prefix
    have hidx : rel ≠ ["index.html"] := by
      intro hcon
      rw [hcon] at hlen
      simp at hlen
      omega
    have hdep : rel.length - 1 = d := by omega
    have hne : ¬ rel.length - 1 = 0 := by omega
    simp [hidx, hdep, Nat.ne_of_gt (by omega : 0 < d)]

/-- C2 witness: a file directly under the docs root gets ".", and a
file one directory deep gets "..". -/
theorem C2_asset_prefix_depth_witness :
    (["file.c.html"] : RepoPath).length ≤ 1 ∧
    calculate_asset_prefix ["file.c.html"] = "." ∧
    (1 : Nat) ≤ 1 ∧ (["src-local", "f.c.html"] : RepoPath).length = 1 + 1 ∧
    calculate_asset_prefix ["src-local", "f.c.html"] =
      String.intercalate "/" (List.replicate 1 "..") := by
  refine ⟨by decide, ?_, by decide, by decide, ?_⟩
  · exact (C2_asset_prefix_depth ["file.c.html"]).1 (by decide)
  · exact (C2_asset_prefix_depth ["src-local", "f.c.html"]).2 1 (by decide) (by decide)

/-- listAppendTR computes ordinary list append. -/
theorem listAppendTR_eq (a b : List Char) : listAppendTR a b = a ++ b := by
  unfold listAppendTR
  rw [List.reverseAux_eq, List.reverseAux_eq]
  simp

/-- takeRevAux accumulates List.take in reverse onto the
accumulator. -/
theorem takeRevAux_eq (n : Nat) (cs acc : List Char) :
    takeRevAux n cs acc = (List.take n cs).reverse ++ acc := by
  induction n generalizing cs acc with
  | zero => simp [takeRevAux]
  | succ m ih =>
    cases cs with
    | nil => simp [takeRevAux]
    | cons c rest => simp [takeRevAux, ih]

/-- takeTR computes List.take. -/
theorem takeTR_eq (n : Nat) (cs : List Char) : takeTR n cs = List.take n cs := by
  unfold takeTR
  rw [List.reverseAux_eq, takeRevAux_eq]
  simp

/-- listEqTR decides list equality. -/
theorem listEqTR_eq_true_iff (a b : List Char) : listEqTR a b = true ↔ a = b := by
  induction a generalizing b with
  | nil => cases b <;> simp [listEqTR]
  | cons x xs ih =>
    cases b with
    | nil => simp [listEqTR]
    | cons y ys =>
      by_cases hxy : x = y
      · simp [listEqTR, hxy, ih]
      · simp [listEqTR, hxy]

/-- C3 counterexample: on the tree text of the claim the parser links
the directory core/ to "core", not to "app/core", and links main.c to
"core/main.c.html", not to "app/core/main.c.html": no emitted line
carries either claimed parent-joined target. -/
theorem C3_counterexample :
    ((convert_directory_tree_lines c3_tree_text).all
      (fun l => !( contains_sub l "](app/core)"))) = true ∧
    ((convert_directory_tree_lines c3_tree_text).all
      (fun l => !( contains_sub l "](app/core/main.c.html)"))) = true ∧
    "  * **[core/](core)** - " ∈ convert_directory_tree_lines c3_tree_text := by
  refine ⟨by decide, by decide, by decide⟩

/-- C3 amended: for the tree text app/ newline three-spaces core/
newline six-spaces main.c, the parser emits a link for the directory
app/ with target app, a link for the directory core/ with target core
(a directory link always targets the bare directory token, never the
parent-joined path), and a link for the file main.c with target
core/main.c.html (the parent directory resolved from the stack entry
at level - 1, which holds the bare name core). -/
theorem C3_amended_tree_links :
    convert_directory_tree_lines c3_tree_text =
      ["<div class=\"repository-structure\">",
       "* **[app/](app)** - ",
       "  * **[core/](core)** - ",
       "    * **[main.c](core/main.c.html)** - ",
       "</div>"] := by
  decide

/-- C5 counterexample: for the notebook cell of the claim the extracted
description is not the first paragraph "Short blurb."; the greedy dot
of the description regex runs under re.DOTALL across the first blank
line, so the lazy group starts after the last blank line instead. -/
theorem C5_counterexample :
    (process_notebook_meta "demo.ipynb" c5_cells).description ≠ "Short blurb." := by
  decide

/-- C5 amended: metadata extraction scans to the first markdown cell
whose source contains a top-level heading (earlier non-markdown cells
are passed over), takes the heading text as title and up to three
bullet items as features, but the description group, evaluated under
re.DOTALL, is the text between the last blank line of the cell and its
end; for the cell of the claim this yields title Demo, description
"* F1 newline * F2" and features [F1, F2]. -/
theorem C5_amended_notebook_meta :
    process_notebook_meta "demo.ipynb" c5_cells =
      ⟨"Demo", "* F1\n* F2", ["F1", "F2"]⟩ := by
  decide

/-- C10 counterexample: insert_javascript_in_html is not idempotent on
file content.  Applying it a second time to an already-processed page
inserts the snippet again (the content changes), because the inserted
snippet assigns the class from JavaScript (button.className) and never
contains the literal marker class="copy-button" that the guard checks
for. -/
theorem C10_counterexample :
    ( insert_javascript_in_html ( insert_javascript_in_html c10_example_html).2).2 ≠
      ( insert_javascript_in_html c10_example_html).2 := by
  intro h
  have hdata := congrArg String.data h
  have htrue := (listEqTR_eq_true_iff
    ( insert_javascript_in_html ( insert_javascript_in_html c10_example_html).2).2.data
    ( insert_javascript_in_html c10_example_html).2.data).mpr hdata
  have hfalse : listEqTR
      ( insert_javascript_in_html ( insert_javascript_in_html c10_example_html).2).2.data
      ( insert_javascript_in_html c10_example_html).2.data = false := by decide
  rw [hfalse] at htrue
  exact Bool.noConfusion htrue

/-- C10 amended: insert_javascript_in_html always reports success, and
it leaves the content unchanged precisely when the guard fires, i.e.
when the content already contains the literal class="copy-button"; the
snippet it inserts does not contain that literal, so a second
application to a file it has already processed re-inserts the snippet
instead of leaving the file unchanged. -/
theorem C10_amended_reinsertion (content : String) :
    ( insert_javascript_in_html content).1 = true ∧
    (contains_sub content "class=\"copy-button\"" = true →
      insert_javascript_in_html content = (true, content)) ∧
    contains_sub copy_js "class=\"copy-button\"" = false := by
  refine ⟨?_, ?_, by decide⟩
  · unfold insert_javascript_in_html
    split
    · rfl
    · split
      · rfl
      · split
        · rfl
        · rfl
  · intro h
    unfold insert_javascript_in_html
    simp [h]

/-- C10 witness: on content already containing the literal marker the
function is the identity and reports success. -/
theorem C10_amended_reinsertion_witness :
    contains_sub "<body><button class=\"copy-button\">Copy</button></body>"
      "class=\"copy-button\"" = true ∧
    insert_javascript_in_html "<body><button class=\"copy-button\">Copy</button></body>" =
      (true, "<body><button class=\"copy-button\">Copy</button></body>") := by
  refine ⟨by decide, ?_⟩
  exact (C10_amended_reinsertion
    "<body><button class=\"copy-button\">Copy</button></body>").2.1 (by decide)

/-- C7: when force-rebuild is off and the output file of a source
already exists, the driver records the (source, output) pair and does
nothing else: the resulting state does not depend on the renderer or on
any post-processing (both are arbitrary here and absent from the right
hand side), and the docs tree, in particular the existing output file
content, is unchanged. -/
theorem C7_skip_existing (docsDir : RepoPath)
    (pandoc : RepoPath → Int × Option String) (post : String → String)
    (st : DriverState) (f : RepoPath)
    (h : (st.fs (outputPath docsDir f)).isSome = true) :
    mainStep docsDir false pandoc post st f =
      { st with generated := st.generated ++ [(f, outputPath docsDir f)] } := by
  unfold mainStep
  simp [h]

/-- C7 witness: with a.c.html already present, the step for a.c under
an arbitrary succeeding renderer stub only appends the pair. -/
theorem C7_skip_existing_witness :
    (c7_state.fs (outputPath ["docs"] ["a.c"])).isSome = true ∧
    mainStep ["docs"] false c7_pandoc (fun h => h) c7_state ["a.c"] =
      { c7_state with generated :=
          c7_state.generated ++ [(["a.c"], outputPath ["docs"] ["a.c"])] } :=
  ⟨by decide, C7_skip_existing ["docs"] c7_pandoc (fun h => h) c7_state ["a.c"] (by decide)⟩

/-- mainLoop splits over list concatenation. -/
theorem mainLoop_append (docsDir : RepoPath) (force : Bool)
    (pandoc : RepoPath → Int × Option String) (post : String → String)
    (l1 l2 : List RepoPath) (st : DriverState) :
    mainLoop docsDir force pandoc post (l1 ++ l2) st =
      mainLoop docsDir force pandoc post l2 (mainLoop docsDir force pandoc post l1 st) := by
  simp [mainLoop, List.foldl_append]

/-- mainStep commutes with the core projection: the reported messages
never feed back into the mapping or the docs tree. -/
theorem mainStep_core (docsDir : RepoPath) (force : Bool)
    (pandoc : RepoPath → Int × Option String) (post : String → String)
    (st : DriverState) (f : RepoPath) :
    coreOf (mainStep docsDir force pandoc post st f) =
      coreStep docsDir force pandoc post (coreOf st) f := by
  unfold mainStep coreStep coreOf
  by_cases hc : force = false ∧ (st.fs (outputPath docsDir f)).isSome = true
  · simp [hc]
  · simp only [hc, if_false]
    cases hm : (match (pandoc f).2 with
        | some h => updateFS st.fs (outputPath docsDir f) h
        | none => st.fs) (outputPath docsDir f) with
    | some h => simp [hm]
    | none => simp [hm]

/-- mainLoop commutes with the core projection. -/
theorem mainLoop_core (docsDir : RepoPath) (force : Bool)
    (pandoc : RepoPath → Int × Option String) (post : String → String)
    (files : List RepoPath) (st : DriverState) :
    coreOf (mainLoop docsDir force pandoc post files st) =
      files.foldl (coreStep docsDir force pandoc post) (coreOf st) := by
  induction files generalizing st with
  | nil => rfl
  | cons g rest ih =>
    show coreOf (mainLoop docsDir force pandoc post rest
        (mainStep docsDir force pandoc post st g)) = _
    rw [ih, mainStep_core]
    rfl

/-- Each step leaves the mapping unchanged or appends the pair of the
file it processes. -/
theorem mainStep_generated_cases (docsDir : RepoPath) (force : Bool)
    (pandoc : RepoPath → Int × Option String) (post : String → String)
    (st : DriverState) (f : RepoPath) :
    (mainStep docsDir force pandoc post st f).generated = st.generated ∨
    (mainStep docsDir force pandoc post st f).generated =
      st.generated ++ [(f, outputPath docsDir f)] := by
  unfold mainStep
  by_cases hc : force = false ∧ (st.fs (outputPath docsDir f)).isSome = true
  · right
    simp [hc]
  · simp only [hc, if_false]
    cases hm : (match (pandoc f).2 with
        | some h => updateFS st.fs (outputPath docsDir f) h
        | none => st.fs) (outputPath docsDir f) with
    | some h =>
      right
      simp [hm]
    | none =>
      left
      simp [hm]

/-- A pair in the mapping after a run was already there or names a
processed file. -/
theorem mainLoop_generated_mem (docsDir : RepoPath) (force : Bool)
    (pandoc : RepoPath → Int × Option String) (post : String → String)
    (files : List RepoPath) (st : DriverState) (p q : RepoPath)
    (h : (p, q) ∈ (mainLoop docsDir force pandoc post files st).generated) :
    (p, q) ∈ st.generated ∨ p ∈ files := by
  induction files generalizing st with
  | nil => exact Or.inl h
  | cons g rest ih =>
    have h2 : (p, q) ∈ (mainLoop docsDir force pandoc post rest
        (mainStep docsDir force pandoc post st g)).generated := h
    rcases ih _ h2 with h3 | h3
    · rcases mainStep_generated_cases docsDir force pandoc post st g with he | he
      · rw [he] at h3
        exact Or.inl h3
      · rw [he] at h3
        rcases List.mem_append.mp h3 with h4 | h4
        · exact Or.inl h4
        · have h5 : (p, q) = (g, outputPath docsDir g) := by simpa using h4
          have h6 : p = g := congrArg Prod.fst h5
          right
          rw [h6]
          exact List.mem_cons_self g rest
    · exact Or.inr (List.mem_cons_of_mem g h3)

/-- Reported messages are never removed by a step. -/
theorem mainStep_reported_mono (docsDir : RepoPath) (force : Bool)
    (pandoc : RepoPath → Int × Option String) (post : String → String)
    (st : DriverState) (f : RepoPath) (r : BuildReport)
    (h : r ∈ st.reported) : r ∈ (mainStep docsDir force pandoc post st f).reported := by
  unfold mainStep
  by_cases hc : force = false ∧ (st.fs (outputPath docsDir f)).isSome = true
  · simpa [hc] using h
  · simp only [hc, if_false]
    cases hm : (match (pandoc f).2 with
        | some h => updateFS st.fs (outputPath docsDir f) h
        | none => st.fs) (outputPath docsDir f) with
    | some v =>
      by_cases he : (pandoc f).1 ≠ 0
      · simp [hm, he, List.mem_append, h]
      · simp [hm, he, h]
    | none =>
      by_cases he : (pandoc f).1 ≠ 0
      · simp [hm, he, List.mem_append, h]
      · simp [hm, he, List.mem_append, h]

/-- Reported messages are never removed by a run. -/
theorem mainLoop_reported_mono (docsDir : RepoPath) (force : Bool)
    (pandoc : RepoPath → Int × Option String) (post : String → String)
    (files : List RepoPath) (st : DriverState) (r : BuildReport)
    (h : r ∈ st.reported) :
    r ∈ (mainLoop docsDir force pandoc post files st).reported := by
  induction files generalizing st with
  | nil => exact h
  | cons g rest ih =>
    exact ih _ (mainStep_reported_mono docsDir force pandoc post st g r h)

/-- A step whose renderer exits non-zero writing nothing, on a file
whose output does not exist, only reports: the pandoc error message and
the processing error message are appended, the mapping and the docs
tree are untouched. -/
theorem mainStep_pandoc_fail (docsDir : RepoPath) (force : Bool)
    (pandoc : RepoPath → Int × Option String) (post : String → String)
    (st : DriverState) (f : RepoPath) (e : Int)
    (hf : pandoc f = (e, none)) (he : e ≠ 0)
    (hout : st.fs (outputPath docsDir f) = none) :
    mainStep docsDir force pandoc post st f =
      { st with reported := st.reported ++
          [BuildReport.pandocError f, BuildReport.processError f] } := by
  unfold mainStep
  have hc : ¬ (force = false ∧ (st.fs (outputPath docsDir f)).isSome = true) := by
    simp [hout]
  simp [hc, hf, he, hout]

/-- C8: a source file whose render fails (non-zero exit with, per the
interface contract, no output file written) never enters the mapping,
its failure is reported, and the run continues: the mapping of the full
run equals the mapping of the run over the remaining files alone. -/
theorem C8_render_failure_exclusion (docsDir : RepoPath) (force : Bool)
    (pandoc : RepoPath → Int × Option String) (post : String → String)
    (st : DriverState) (f : RepoPath) (l1 l2 : List RepoPath) (e : Int)
    (hf : pandoc f = (e, none)) (he : e ≠ 0)
    (hmid : (mainLoop docsDir force pandoc post l1 st).fs (outputPath docsDir f) = none)
    (hstgen : ∀ q : RepoPath, (f, q) ∉ st.generated)
    (hl1 : f ∉ l1) (hl2 : f ∉ l2) :
    (∀ q : RepoPath,
      (f, q) ∉ (mainLoop docsDir force pandoc post (l1 ++ f :: l2) st).generated) ∧
    BuildReport.pandocError f ∈
      (mainLoop docsDir force pandoc post (l1 ++ f :: l2) st).reported ∧
    (mainLoop docsDir force pandoc post (l1 ++ f :: l2) st).generated =
      (mainLoop docsDir force pandoc post (l1 ++ l2) st).generated := by
  have hsplit : mainLoop docsDir force pandoc post (l1 ++ f :: l2) st =
      mainLoop docsDir force pandoc post l2
        (mainStep docsDir force pandoc post
          (mainLoop docsDir force pandoc post l1 st) f) := by
    simp [mainLoop, List.foldl_append]
  have hstep := mainStep_pandoc_fail docsDir force pandoc post
    (mainLoop docsDir force pandoc post l1 st) f e hf he hmid
  have hcore : coreOf (mainStep docsDir force pandoc post
      (mainLoop docsDir force pandoc post l1 st) f) =
      coreOf (mainLoop docsDir force pandoc post l1 st) := by
    rw [hstep]
    rfl
  have hsplit2 : mainLoop docsDir force pandoc post (l1 ++ l2) st =
      mainLoop docsDir force pandoc post l2 (mainLoop docsDir force pandoc post l1 st) := by
    simp [mainLoop, List.foldl_append]
  have hgen_eq : (mainLoop docsDir force pandoc post (l1 ++ f :: l2) st).generated =
      (mainLoop docsDir force pandoc post (l1 ++ l2) st).generated := by
    rw [hsplit, hsplit2]
    have h1 := mainLoop_core docsDir force pandoc post l2
      (mainStep docsDir force pandoc post (mainLoop docsDir force pandoc post l1 st) f)
    have h2 := mainLoop_core docsDir force pandoc post l2
      (mainLoop docsDir force pandoc post l1 st)
    have h3 : coreOf (mainLoop docsDir force pandoc post l2
        (mainStep docsDir force pandoc post (mainLoop docsDir force pandoc post l1 st) f)) =
        coreOf (mainLoop docsDir force pandoc post l2
          (mainLoop docsDir force pandoc post l1 st)) := by
      rw [h1, h2, hcore]
    exact congrArg Prod.fst h3
  refine ⟨?_, ?_, hgen_eq⟩
  · intro q hq
    rw [hgen_eq] at hq
    rcases mainLoop_generated_mem docsDir force pandoc post (l1 ++ l2) st f q hq with h | h
    · exact hstgen q h
    · rcases List.mem_append.mp h with h | h
      · exact hl1 h
      · exact hl2 h
  · rw [hsplit]
    apply mainLoop_reported_mono
    rw [hstep]
    simp

/-- C8 witness: in the run a.c, bad.c, b.py where bad.c renders with
exit 1 and nothing written, bad.c is excluded, reported, and the
mapping equals the run without bad.c. -/
theorem C8_render_failure_exclusion_witness :
    c8_pandoc ["bad.c"] = (1, none) ∧ (1 : Int) ≠ 0 ∧
    (mainLoop ["docs"] false c8_pandoc (fun h => h) [["a.c"]] c8_state).fs
      (outputPath ["docs"] ["bad.c"]) = none ∧
    (∀ q : RepoPath, (["bad.c"], q) ∉ c8_state.generated) ∧
    (["bad.c"] : RepoPath) ∉ [(["a.c"] : RepoPath)] ∧
    (["bad.c"] : RepoPath) ∉ [(["b.py"] : RepoPath)] ∧
    ((∀ q : RepoPath, (["bad.c"], q) ∉
        (mainLoop ["docs"] false c8_pandoc (fun h => h)
          ([["a.c"]] ++ ["bad.c"] :: [["b.py"]]) c8_state).generated) ∧
      BuildReport.pandocError ["bad.c"] ∈
        (mainLoop ["docs"] false c8_pandoc (fun h => h)
          ([["a.c"]] ++ ["bad.c"] :: [["b.py"]]) c8_state).reported ∧
      (mainLoop ["docs"] false c8_pandoc (fun h => h)
          ([["a.c"]] ++ ["bad.c"] :: [["b.py"]]) c8_state).generated =
        (mainLoop ["docs"] false c8_pandoc (fun h => h)
          ([["a.c"]] ++ [["b.py"]]) c8_state).generated) := by
  refine ⟨by decide, by decide, by decide, ?_, by decide, by decide, ?_⟩
  · intro q
    simp [c8_state]
  · exact C8_render_failure_exclusion ["docs"] false c8_pandoc (fun h => h) c8_state
      ["bad.c"] [["a.c"]] [["b.py"]] 1 (by decide) (by decide) (by decide)
      (by intro q; simp [c8_state]) (by decide) (by decide)

/-- Deduplication does not change the element set of a list. -/
theorem dedup_toFinset (l : List String) : l.dedup.toFinset = l.toFinset := by
  ext x
  simp [List.mem_dedup]

/-- C9: find_source_files returns a duplicate-free list sorted in
ascending path-string order; membership is exactly presence among the
scanned entries plus acceptance, every member occurs exactly once (so
a file visited by both the per-directory scan and the root scan, which
the entries list concatenates, appears once), and two scans visiting
the same set of files produce the same enumeration. -/
theorem C9_find_source_files (e₁ e₂ : List String) :
    List.Sorted (fun a b : String => a ≤ b) (find_source_files e₁) ∧
    (find_source_files e₁).Nodup ∧
    (∀ p : String, p ∈ find_source_files e₁ ↔ (p ∈ e₁ ∧ is_source_file p = true)) ∧
    (∀ p : String, p ∈ find_source_files e₁ → (find_source_files e₁).count p = 1) ∧
    (e₁.toFinset = e₂.toFinset → find_source_files e₁ = find_source_files e₂) := by
  have hsorted : ∀ e : List String,
      List.Sorted (fun a b : String => a ≤ b) (find_source_files e) := fun e =>
    List.sorted_insertionSort _ _
  have hperm : ∀ e : List String,
      (find_source_files e).Perm ((e.filter (fun p => is_source_file p)).dedup) := fun e =>
    List.perm_insertionSort _ _
  have hnodup : ∀ e : List String, (find_source_files e).Nodup := fun e =>
    ((hperm e).symm).nodup (List.nodup_dedup _)
  refine ⟨hsorted e₁, hnodup e₁, ?_, ?_, ?_⟩
  · intro p
    rw [(hperm e₁).mem_iff, List.mem_dedup, List.mem_filter]
  · intro p hp
    exact List.count_eq_one_of_mem (hnodup e₁) hp
  · intro hfin
    have hfil : (e₁.filter (fun p => is_source_file p)).dedup.toFinset =
        (e₂.filter (fun p => is_source_file p)).dedup.toFinset := by
      rw [dedup_toFinset, dedup_toFinset, List.toFinset_filter, List.toFinset_filter, hfin]
    have hdperm := List.perm_of_nodup_nodup_toFinset_eq
      (List.nodup_dedup _) (List.nodup_dedup _) hfil
    exact List.eq_of_perm_of_sorted
      ((hperm e₁).trans (hdperm.trans (hperm e₂).symm)) (hsorted e₁) (hsorted e₂)

/-- C9 witness: a file appearing in both scans (here src-local/solve.c
listed twice) is a member, occurs exactly once, and the permuted entry
list yields the identical enumeration. -/
theorem C9_find_source_files_witness :
    ("src-local/solve.c" ∈ (["src-local/solve.c", "Makefile", "notes.txt",
        "src-local/solve.c"] : List String) ∧
      is_source_file "src-local/solve.c" = true) ∧
    "src-local/solve.c" ∈ find_source_files ["src-local/solve.c", "Makefile", "notes.txt",
        "src-local/solve.c"] ∧
    (find_source_files ["src-local/solve.c", "Makefile", "notes.txt",
        "src-local/solve.c"]).count "src-local/solve.c" = 1 ∧
    (["src-local/solve.c", "Makefile", "notes.txt", "src-local/solve.c"] : List String).toFinset =
      (["Makefile", "src-local/solve.c", "notes.txt"] : List String).toFinset ∧
    find_source_files ["src-local/solve.c", "Makefile", "notes.txt", "src-local/solve.c"] =
      find_source_files ["Makefile", "src-local/solve.c", "notes.txt"] := by
  have h := C9_find_source_files
    ["src-local/solve.c", "Makefile", "notes.txt", "src-local/solve.c"]
    ["Makefile", "src-local/solve.c", "notes.txt"]
  have hcond : ("src-local/solve.c" ∈ (["src-local/solve.c", "Makefile", "notes.txt",
      "src-local/solve.c"] : List String) ∧ is_source_file "src-local/solve.c" = true) := by
    constructor
    · decide
    · decide
  have hmem := (h.2.2.1 "src-local/solve.c").mpr hcond
  exact ⟨hcond, hmem, h.2.2.2.1 "src-local/solve.c" hmem, by decide,
    h.2.2.2.2 (by decide)⟩

/-- C4: the link-suffixing pass appends ".html" to an anchor whose href
ends in a recognized source extension and is not http(s)-prefixed, not
an in-page anchor and not already .html, and leaves unchanged every
anchor whose href starts with http/https, starts with "#", or already
ends in ".html". -/
theorem C4_link_suffixing (a : Anchor) :
    ((pyStartsWith a.href "http" = false ∧ pyStartsWith a.href "https" = false ∧
        pyStartsWith a.href "#" = false ∧ pyEndsWith a.href ".html" = false ∧
        has_suffixable_ext a.href = true) →
      fix_doc_links a = { a with href := a.href ++ ".html" }) ∧
    ((pyStartsWith a.href "http" = true ∨ pyStartsWith a.href "https" = true ∨
        pyStartsWith a.href "#" = true ∨ pyEndsWith a.href ".html" = true) →
      fix_doc_links a = a) := by
  constructor
  · rintro ⟨h1, h1b, h2, h3, h4⟩
    unfold fix_doc_links
    simp [h1, h1b, h2, h3, h4]
  · intro h
    unfold fix_doc_links
    rcases h with h | h | h | h
    all_goals simp [h]

/-- C4 witness: href "util.py" is rewritten to "util.py.html"; hrefs
"https://example.com/util.py", "#sec" and "util.py.html" are left
unchanged. -/
theorem C4_link_suffixing_witness :
    (pyStartsWith "util.py" "http" = false ∧
      pyStartsWith "util.py" "https" = false ∧
      pyStartsWith "util.py" "#" = false ∧
      pyEndsWith "util.py" ".html" = false ∧
      has_suffixable_ext "util.py" = true) ∧
    fix_doc_links ⟨"util.py", "x"⟩ = ⟨"util.py.html", "x"⟩ ∧
    (pyStartsWith "https://example.com/util.py" "http" = true) ∧
    fix_doc_links ⟨"https://example.com/util.py", "x"⟩ = ⟨"https://example.com/util.py", "x"⟩ ∧
    (pyStartsWith "#sec" "#" = true) ∧
    fix_doc_links ⟨"#sec", "x"⟩ = ⟨"#sec", "x"⟩ ∧
    (pyEndsWith "util.py.html" ".html" = true) ∧
    fix_doc_links ⟨"util.py.html", "x"⟩ = ⟨"util.py.html", "x"⟩ := by
  refine ⟨by decide, ?_, by decide, ?_, by decide, ?_, by decide, ?_⟩
  · exact (C4_link_suffixing ⟨"util.py", "x"⟩).1 (by decide)
  · exact (C4_link_suffixing ⟨"https://example.com/util.py", "x"⟩).2 (Or.inl (by decide))
  · exact (C4_link_suffixing ⟨"#sec", "x"⟩).2 (Or.inr (Or.inr (Or.inl (by decide))))
  · exact (C4_link_suffixing ⟨"util.py.html", "x"⟩).2 (Or.inr (Or.inr (Or.inr (by decide))))

/-- C6: for a native C/C++ source file, a successful literate-c run
(exit code 0, output non-empty after strip) yields the tool output with
the private fence marker "~~~literatec" replaced by "~~~c"; a non-zero
exit, empty (post-strip) output, or an exception while invoking the
tool all yield the plain fallback: the file name as a heading followed
by the file content in a fenced code block tagged c. -/
theorem C6_literate_c_fallback (fileName fileContent stdout stderr : String)
    (returncode : Int) :
    (returncode = 0 → pyStrip stdout ≠ "" →
      process_c_file fileName fileContent (.ran returncode stdout stderr) =
        stdout.replace "~~~literatec" "~~~c") ∧
    (returncode ≠ 0 ∨ pyStrip stdout = "" →
      process_c_file fileName fileContent (.ran returncode stdout stderr) =
        "# " ++ fileName ++ "\n\n```c\n" ++ fileContent ++ "\n```\n") ∧
    (process_c_file fileName fileContent .raised =
      "# " ++ fileName ++ "\n\n```c\n" ++ fileContent ++ "\n```\n") := by
  refine ⟨?_, ?_, rfl⟩
  · intro h0 hne
    unfold process_c_file
    simp [h0, hne]
  · intro h
    unfold process_c_file
    rcases h with h | h
    · simp [h, c_fallback_markdown]
    · simp [h, c_fallback_markdown]

/-- C6 witness: a successful run with non-empty output substitutes the
marker, a failing exit code falls back to the plain markdown. -/
theorem C6_literate_c_fallback_witness :
    ((0 : Int) = 0) ∧ pyStrip "~~~literatec\nint x;\n~~~" ≠ "" ∧
    process_c_file "f.c" "int x;" (.ran 0 "~~~literatec\nint x;\n~~~" "") =
      ("~~~literatec\nint x;\n~~~" : String).replace "~~~literatec" "~~~c" ∧
    ((1 : Int) ≠ 0 ∨ pyStrip "out" = "") ∧
    process_c_file "f.c" "int x;" (.ran 1 "out" "err") =
      "# " ++ "f.c" ++ "\n\n```c\n" ++ "int x;" ++ "\n```\n" := by
  refine ⟨rfl, by decide, ?_, Or.inl (by decide), ?_⟩
  · exact (C6_literate_c_fallback "f.c" "int x;" "~~~literatec\nint x;\n~~~" "" 0).1
      rfl (by decide)
  · exact (C6_literate_c_fallback "f.c" "int x;" "out" "err" 1).2.1 (Or.inl (by decide))

end GenerateDocs
